import Mathlib

set_option maxRecDepth 40000

/-!
Verification development for the case-converter / email-signature repository.
The case/format engine (src/App.tsx) and the signature builder (the unnamed
source file) are embedded shallowly: JavaScript strings become Lean `String`
(processed as `List Char`), the locale case maps `toLocaleUpperCase` /
`toLocaleLowerCase` are modelled per character by `Char.toUpper` /
`Char.toLower`, and the Unicode regex classes p{L} / [p{L}p{N}] are modelled
on the basic-Latin range (ASCII letters and digits), which is the fragment all
of the specification's worked examples live in.
-/

/-- Model of the regex class p{L} (restricted to basic Latin letters). -/
def isLetterC (c : Char) : Bool :=
  decide (65 ≤ c.toNat ∧ c.toNat ≤ 90) || decide (97 ≤ c.toNat ∧ c.toNat ≤ 122)

/-- Model of the regex class p{N} (restricted to the digits 0-9). -/
def isDigitC (c : Char) : Bool :=
  decide (48 ≤ c.toNat ∧ c.toNat ≤ 57)

/-- Model of the regex class [p{L}p{N}]: a letter or a digit. -/
def isAlnumC (c : Char) : Bool :=
  isLetterC c || isDigitC c

/-- Whitespace as removed by JavaScript String.prototype.trim (core set). -/
def isWSC (c : Char) : Bool :=
  c.isWhitespace

/-- List-level model of JavaScript String.prototype.trim. -/
def trimL (s : List Char) : List Char :=
  ((s.dropWhile isWSC).reverse.dropWhile isWSC).reverse

/-- String-level trim, wrapping `trimL`. -/
def jsTrim (s : String) : String :=
  String.mk (trimL s.data)

/-- Model of toLocaleUpperCase: uppercase every character. -/
def upperL (s : List Char) : List Char :=
  s.map Char.toUpper

/-- Model of toLocaleLowerCase: lowercase every character. -/
def lowerL (s : List Char) : List Char :=
  s.map Char.toLower

/-- Scanner behind the source regex replace
`input.replace(/\p{L}[\p{L}\p{N}]*/gu, fn)`: a match starts at a letter,
extends greedily through letters and digits, and is replaced by `fn` applied
to the matched word; all other characters are copied through.  `acc` holds the
(reversed) word collected so far. -/
def pwtGo (fn : List Char → List Char) : List Char → List Char → List Char
  | acc, [] => if acc.isEmpty then [] else fn acc.reverse
  | acc, c :: rest =>
    if isAlnumC c then
      if acc.isEmpty then
        if isLetterC c then pwtGo fn [c] rest
        else c :: pwtGo fn [] rest
      else pwtGo fn (c :: acc) rest
    else
      (if acc.isEmpty then [] else fn acc.reverse) ++ (c :: pwtGo fn [] rest)

/-- Source `preserveWordTransform(input, fn)`. -/
def preserveWordTransform (input : String) (fn : List Char → List Char) : String :=
  String.mk (pwtGo fn [] input.data)

/-- Word-capitalisation used by title/camel/pascal: lowercase the word, then
uppercase its first character (the empty-word guard mirrors the source). -/
def capWordL (w : List Char) : List Char :=
  match w.map Char.toLower with
  | [] => []
  | c :: cs => Char.toUpper c :: cs

/-- Source `toTitleCase`: the same regex replace with the capitalising fn. -/
def toTitleCase (text : String) : String :=
  String.mk (pwtGo capWordL [] text.data)

/-- The characters after which `toSentenceCase` re-arms capitalisation. -/
def isSentenceStop (c : Char) : Bool :=
  c = '.' || c = '!' || c = '?' || c = '\n'

/-- Loop of `toSentenceCase`: `capNext` starts true, is cleared after an
uppercased letter, set again after `.`, `!`, `?` or a newline, and otherwise
keeps its value. -/
def sentGo : Bool → List Char → List Char
  | _, [] => []
  | capNext, c :: rest =>
    if capNext && isLetterC c then Char.toUpper c :: sentGo false rest
    else c :: sentGo (if isSentenceStop c then true else capNext) rest

/-- Source `toSentenceCase`: lowercase everything, then capitalise sentence
starts. -/
def toSentenceCase (text : String) : String :=
  String.mk (sentGo true (lowerL text.data))

/-- Per-character step of `toggleCase`: non-letters pass through; a letter
that equals its own uppercase form is lowercased, otherwise uppercased. -/
def toggleChar (c : Char) : Char :=
  if !isLetterC c then c
  else if c = Char.toUpper c then Char.toLower c else Char.toUpper c

/-- Source `toggleCase`. -/
def toggleCase (text : String) : String :=
  String.mk (text.data.map toggleChar)

/-- Loop of `alternatingCase`: non-letters pass through without advancing the
flip flag; letters alternate lower/upper starting with lower. -/
def altGo : Bool → List Char → List Char
  | _, [] => []
  | flip, c :: rest =>
    if !isLetterC c then c :: altGo flip rest
    else (if flip then Char.toUpper c else Char.toLower c) :: altGo (!flip) rest

/-- Source `alternatingCase`. -/
def alternatingCase (text : String) : String :=
  String.mk (altGo false text.data)

/-- Scanner behind the source split
`text.trim().split(/[^\p{L}\p{N}]+/u).filter(Boolean)`: splitting at
maximal runs of non-alphanumeric characters and discarding empty pieces
yields exactly the maximal alphanumeric runs, collected here with a reversed
accumulator. -/
def wordsGo : List Char → List Char → List (List Char)
  | acc, [] => if acc.isEmpty then [] else [acc.reverse]
  | acc, c :: rest =>
    if isAlnumC c then wordsGo (c :: acc) rest
    else if acc.isEmpty then wordsGo [] rest
    else acc.reverse :: wordsGo [] rest

/-- List-level `splitWords`. -/
def splitWordsL (s : List Char) : List (List Char) :=
  wordsGo [] (trimL s)

/-- Source `splitWords` (word tokens as character lists). -/
def splitWords (text : String) : List (List Char) :=
  splitWordsL text.data

/-- Source `toCamelCase`. -/
def toCamelCase (text : String) : String :=
  match splitWords text with
  | [] => String.mk []
  | w :: ws => String.mk (lowerL w ++ (ws.map capWordL).flatten)

/-- Source `toPascalCase`. -/
def toPascalCase (text : String) : String :=
  String.mk (((splitWords text).map capWordL).flatten)

/-- Source `toDelimited(text, d)`: every token lowercased, joined with `d`. -/
def toDelimited (text : String) (d : List Char) : String :=
  String.mk (List.intercalate d ((splitWords text).map lowerL))

/-- Source `toSpaceCase`: tokens joined with a single space, casing kept. -/
def toSpaceCase (text : String) : String :=
  String.mk (List.intercalate [' '] (splitWords text))

/-- Source `computeOutput(text, preserve, active)`: the twelve-way dispatch;
unknown keys fall through to returning the input. -/
def computeOutput (text : String) (preserve : Bool) (active : String) : String :=
  let input := text
  if active = "upper" then
    if preserve then preserveWordTransform input upperL
    else String.mk (upperL (trimL input.data))
  else if active = "lower" then
    if preserve then preserveWordTransform input lowerL
    else String.mk (lowerL (trimL input.data))
  else if active = "title" then
    if preserve then toTitleCase input else toTitleCase (jsTrim input)
  else if active = "sentence" then
    if preserve then toSentenceCase input else toSentenceCase (jsTrim input)
  else if active = "toggle" then
    if preserve then toggleCase input else toggleCase (jsTrim input)
  else if active = "alternating" then
    if preserve then alternatingCase input else alternatingCase (jsTrim input)
  else if active = "camel" then toCamelCase input
  else if active = "pascal" then toPascalCase input
  else if active = "snake" then toDelimited input ['_']
  else if active = "kebab" then toDelimited input ['-']
  else if active = "dot" then toDelimited input ['.']
  else if active = "space" then toSpaceCase input
  else input

/-- Modelled from the spec: the in-place word transform for the preserve
flag.  A word token begins at a letter and extends maximally to the right
through letters and digits; within each maximal alphanumeric run the
characters from the run's first letter onward are mapped by `g`, and every
other character (separators, punctuation, whitespace, and digits that precede
the first letter of their run) is kept unchanged in its position.  The
Boolean state records whether the scan is currently inside a token. -/
def maskApplyL (g : Char → Char) : Bool → List Char → List Char
  | _, [] => []
  | b, c :: rest =>
    if isLetterC c then g c :: maskApplyL g true rest
    else if isAlnumC c then (if b then g c else c) :: maskApplyL g b rest
    else c :: maskApplyL g false rest

/-- Modelled from the claim's strict reading of a word token: a maximal run
of alphanumeric characters is transformed as a whole if and only if its first
character is a letter; runs beginning with a digit are left entirely
untouched.  The state remembers, inside a run, whether the run started with a
letter. -/
def strictApplyL (g : Char → Char) : Option Bool → List Char → List Char
  | _, [] => []
  | st, c :: rest =>
    if isAlnumC c then
      match st with
      | some b => (if b then g c else c) :: strictApplyL g (some b) rest
      | none => (if isLetterC c then g c else c) :: strictApplyL g (some (isLetterC c)) rest
    else c :: strictApplyL g none rest

/-- Modelled from the spec: split the input at every non-alphanumeric
character (each separator character cuts; adjacent separators yield empty
pieces, removed afterwards by the caller's filter). -/
def splitEach (p : Char → Bool) : List Char → List (List Char)
  | [] => [[]]
  | c :: rest =>
    if p c then [] :: splitEach p rest
    else (splitEach p rest).modifyHead (fun w => c :: w)

/-- Modelled from the spec: the word tokens of a text are obtained by
splitting on non-alphanumeric characters and discarding the empty pieces. -/
def splitWordsSpec (text : String) : List (List Char) :=
  (splitEach (fun c => !isAlnumC c) text.data).filter (fun w => !w.isEmpty)

/-- The apostrophe character (code point 39). -/
def squote : Char := Char.ofNat 39

/-- One global single-character replace pass, the model of
String.prototype.replace with a one-character pattern and the g flag. -/
def replaceChar (t : Char) (r : List Char) : List Char → List Char
  | [] => []
  | c :: cs => (if c = t then r else [c]) ++ replaceChar t r cs

/-- Source `escapeHtml`: five replace passes with the ampersand first, then
angle brackets, double quote and apostrophe. -/
def escapeHtmlL (s : List Char) : List Char :=
  replaceChar squote "&#039;".data
    (replaceChar '"' "&quot;".data
      (replaceChar '>' "&gt;".data
        (replaceChar '<' "&lt;".data
          (replaceChar '&' "&amp;".data s))))

/-- String-level `escapeHtml`. -/
def escapeHtml (s : String) : String :=
  String.mk (escapeHtmlL s.data)

/-- Case-insensitive prefix test modelling the anchored case-insensitive
regexes of the source: the (lowercase) pattern is compared against the
lowercased text. -/
def protoTest (p : List Char) (s : List Char) : Bool :=
  List.isPrefixOf p (s.map Char.toLower)

/-- Source `normalizeUrl`: trim; empty stays empty; the regex
alternatives mailto:, tel:, http://, https:// (case-insensitive, anchored)
leave the value unchanged; otherwise the https:// prefix is added. -/
def normalizeUrl (raw : String) : String :=
  let v := jsTrim raw
  if v = "" then ""
  else if protoTest "mailto:".data v.data || protoTest "tel:".data v.data
      || protoTest "http://".data v.data || protoTest "https://".data v.data then v
  else "https://" ++ v

/-- Modelled from the spec: a character-by-character case-insensitive
starts-with test, lowercasing both sides. -/
def startsWithCI : List Char → List Char → Bool
  | [], _ => true
  | _ :: _, [] => false
  | p :: ps, c :: cs => (Char.toLower c == Char.toLower p) && startsWithCI ps cs

/-- Modelled from the spec (section 4.1): trims whitespace; empty input
yields empty output; if the trimmed value already starts with mailto:, tel:,
http://, or https:// (case-insensitive) it is returned unchanged; otherwise
it is prefixed with https://. -/
def normalizeUrlSpec (raw : String) : String :=
  let v := jsTrim raw
  if v = "" then ""
  else if startsWithCI "mailto:".data v.data || startsWithCI "tel:".data v.data
      || startsWithCI "http://".data v.data || startsWithCI "https://".data v.data then v
  else "https://" ++ v

/-- Strip one leading http:// or https:// (case-insensitive), as the source
does for the website link's display text. -/
def stripProtocol (s : String) : String :=
  if protoTest "https://".data s.data then String.mk (s.data.drop 8)
  else if protoTest "http://".data s.data then String.mk (s.data.drop 7)
  else s

/-- Hexadecimal digits used by percent-encoding. -/
def hexDigit (n : Nat) : Char :=
  "0123456789ABCDEF".data.getD n '0'

/-- Characters encodeURIComponent leaves unescaped. -/
def isUnreservedURI (c : Char) : Bool :=
  isAlnumC c || c = '-' || c = '_' || c = '.' || c = '!' || c = '~' || c = '*'
    || c = squote || c = '(' || c = ')'

/-- Percent-encoding of one character (the icon payloads are ASCII, so one
byte per character). -/
def pctEncodeChar (c : Char) : List Char :=
  if isUnreservedURI c then [c]
  else ['%', hexDigit (c.toNat / 16 % 16), hexDigit (c.toNat % 16)]

/-- Model of encodeURIComponent on the ASCII SVG payloads. -/
def encodeURIComponentL : List Char → List Char
  | [] => []
  | c :: cs => pctEncodeChar c ++ encodeURIComponentL cs

/-- Global multi-character replace with fuel; every use site has a non-empty
pattern, so fuel equal to the input length suffices for the scan. -/
def replaceSeqGo (pat rep : List Char) : Nat → List Char → List Char
  | _, [] => []
  | 0, s => s
  | fuel + 1, c :: rest =>
    if List.isPrefixOf pat (c :: rest) then
      rep ++ replaceSeqGo pat rep fuel (List.drop pat.length (c :: rest))
    else c :: replaceSeqGo pat rep fuel rest

/-- Global multi-character replace (leftmost, non-overlapping). -/
def replaceSeq (pat rep s : List Char) : List Char :=
  replaceSeqGo pat rep s.length s

/-- Source `iconDataUri`: percent-encode the SVG, drop the %0A escapes and
turn %20 back into plain spaces, then attach the data-URI header. -/
def iconDataUri (svg : String) : String :=
  "data:image/svg+xml;charset=utf-8," ++
    String.mk (replaceSeq "%20".data " ".data
      (replaceSeq "%0A".data [] (encodeURIComponentL svg.data)))

/-- The five icon slots produced by `makeSocialIcons`. -/
structure SocialIcons where
  linkedin : String
  facebook : String
  twitter : String
  instagram : String
  whatsapp : String

/-- Source `makeSocialIcons(stroke)`; the numeric font sizes 9 and 8.5 are
passed in their JavaScript string rendering. -/
def makeSocialIcons (stroke : String) : SocialIcons :=
  let mk := fun (txt size : String) =>
    iconDataUri ("\n<svg xmlns=\"http://www.w3.org/2000/svg\" width=\"24\" height=\"24\" viewBox=\"0 0 24 24\">\n  <rect x=\"2.5\" y=\"2.5\" width=\"19\" height=\"19\" rx=\"6\" fill=\"none\" stroke=\"" ++ stroke ++ "\" stroke-width=\"1.5\"/>\n  <text x=\"12\" y=\"14.1\" text-anchor=\"middle\" font-family=\"Arial, Helvetica, sans-serif\" font-size=\"" ++ size ++ "\" font-weight=\"700\" fill=\"" ++ stroke ++ "\">" ++ txt ++ "</text>\n</svg>")
  { linkedin := mk "in" "9", facebook := mk "f" "9", twitter := mk "X" "9",
    instagram := mk "ig" "9", whatsapp := mk "wa" "8.5" }

/-- Source SOCIAL_LIGHT icon set. -/
def SOCIAL_LIGHT : SocialIcons := makeSocialIcons "#6b7280"

/-- Source SOCIAL_DARK icon set. -/
def SOCIAL_DARK : SocialIcons := makeSocialIcons "#cbd5e1"

/-- The contact record (source type FormData): a flat record of strings. -/
structure FormData where
  firstName : String
  lastName : String
  jobTitle : String
  department : String
  companyName : String
  officePhone : String
  mobilePhone : String
  websiteUrl : String
  emailAddress : String
  address : String
  logoUrl : String
  logoDataUrl : String
  linkedin : String
  facebook : String
  twitter : String
  instagram : String
  whatsapp : String
  legal : String

/-- The preview theme enumeration (source BuildOpts.theme). -/
inductive Theme where
  | light : Theme
  | dark : Theme
deriving DecidableEq

/-- One social-row entry of the builder: fixed label, normalized URL and the
matching icon data URI. -/
structure SocialEntry where
  label : String
  url : String
  icon : String

/-- Escaper-parameterised transcription of the source `buildSignatureHTML`:
identical to the builder except that the HTML escaper applied to the
user-supplied values is the parameter `esc`.  Each interpolated field value
appears only under `esc` (or, for the legal text, under `esc` followed by the
newline-to-br substitution). -/
def buildSignatureHTMLWith (esc : String → String) (data : FormData) (opts : Option Theme) : String :=
  let theme : Theme := if opts = some Theme.dark then Theme.dark else Theme.light
  let SOCIAL := if theme = Theme.dark then SOCIAL_DARK else SOCIAL_LIGHT
  let font := "Arial, Helvetica, sans-serif"
  let black := if theme = Theme.dark then "#f8fafc" else "#111827"
  let gray600 := if theme = Theme.dark then "#e5e7eb" else "#4b5563"
  let gray500 := if theme = Theme.dark then "#cbd5e1" else "#6b7280"
  let gray400 := if theme = Theme.dark then "#94a3b8" else "#9ca3af"
  let fullName := jsTrim (String.intercalate " "
    (([data.firstName, data.lastName]).filter (fun s => s ≠ "")))
  let jobLine := jsTrim (String.intercalate " • "
    (([data.jobTitle, data.department]).filter (fun s => s ≠ "")))
  let company := jsTrim data.companyName
  let officePhone := jsTrim data.officePhone
  let mobilePhone := jsTrim data.mobilePhone
  let email := jsTrim data.emailAddress
  let websiteUrl := jsTrim data.websiteUrl
  let address := jsTrim data.address
  let logoSrc :=
    if jsTrim data.logoDataUrl ≠ "" then jsTrim data.logoDataUrl
    else if jsTrim data.logoUrl ≠ "" then normalizeUrl data.logoUrl
    else ""
  let website := if websiteUrl ≠ "" then normalizeUrl websiteUrl else ""
  let socials := ([
    { label := "LinkedIn", url := normalizeUrl data.linkedin, icon := SOCIAL.linkedin },
    { label := "Facebook", url := normalizeUrl data.facebook, icon := SOCIAL.facebook },
    { label := "X", url := normalizeUrl data.twitter, icon := SOCIAL.twitter },
    { label := "Instagram", url := normalizeUrl data.instagram, icon := SOCIAL.instagram },
    { label := "WhatsApp", url := normalizeUrl data.whatsapp, icon := SOCIAL.whatsapp }
  ] : List SocialEntry).filter (fun s => s.url ≠ "")
  let baseTd := "font-family:" ++ font ++ "; text-align:left; mso-line-height-rule:exactly; -webkit-text-size-adjust:100%; -ms-text-size-adjust:100%;"
  let row := fun (html : String) =>
    if html = "" then ""
    else "\n<tr>\n  <td style=\"padding:2px 0; " ++ baseTd ++ " font-size:14px; line-height:18px; color:" ++ gray600 ++ ";\">" ++ html ++ "</td>\n</tr>"
  let officeHtml :=
    if officePhone ≠ "" then
      "<span style=\"color:" ++ gray500 ++ ";\">Office:</span> <a href=\"tel:" ++ esc officePhone ++ "\" style=\"color:" ++ gray600 ++ "; text-decoration:none;\">" ++ esc officePhone ++ "</a>"
    else ""
  let mobileHtml :=
    if mobilePhone ≠ "" then
      "<span style=\"color:" ++ gray500 ++ ";\">Mobile:</span> <a href=\"tel:" ++ esc mobilePhone ++ "\" style=\"color:" ++ gray600 ++ "; text-decoration:none;\">" ++ esc mobilePhone ++ "</a>"
    else ""
  let emailHtml :=
    if email ≠ "" then
      "<a href=\"mailto:" ++ esc email ++ "\" style=\"color:" ++ gray600 ++ "; text-decoration:none;\">" ++ esc email ++ "</a>"
    else ""
  let webHtml :=
    if website ≠ "" then
      "<a href=\"" ++ esc website ++ "\" style=\"color:" ++ gray600 ++ "; text-decoration:none;\">" ++ esc (stripProtocol website) ++ "</a>"
    else ""
  let addressHtml :=
    if address ≠ "" then "<span style=\"color:" ++ gray600 ++ ";\">" ++ esc address ++ "</span>"
    else ""
  let legal := jsTrim data.legal
  let socialsRow :=
    if socials.length > 0 then
      "\n<tr>\n  <td style=\"padding-top:10px; " ++ baseTd ++ "\">\n    <table role=\"presentation\" cellpadding=\"0\" cellspacing=\"0\" border=\"0\" style=\"border-collapse:collapse; " ++ baseTd ++ "\">\n      <tr>\n        "
        ++ String.join (socials.map (fun s =>
          "<td style=\"padding-right:8px;\"><a href=\"" ++ esc s.url ++ "\" style=\"text-decoration:none;\" target=\"_blank\" rel=\"noopener noreferrer\"><img src=\"" ++ s.icon ++ "\" width=\"24\" height=\"24\" style=\"display:block; border:0; outline:none; text-decoration:none;\" alt=\"" ++ esc s.label ++ "\" /></a></td>"))
        ++ "\n      </tr>\n    </table>\n  </td>\n</tr>"
    else ""
  let namePart :=
    if fullName ≠ "" then
      "<div style=\"" ++ baseTd ++ " font-size:18px; line-height:22px; font-weight:700; color:" ++ black ++ ";\">" ++ esc fullName ++ "</div>"
    else ""
  let jobPart :=
    if jobLine ≠ "" then
      "<div style=\"" ++ baseTd ++ " padding-top:2px; font-size:14px; line-height:18px; color:" ++ gray600 ++ ";\">" ++ esc jobLine ++ "</div>"
    else ""
  let companyPart :=
    if company ≠ "" then
      "<div style=\"" ++ baseTd ++ " padding-top:2px; font-size:14px; line-height:18px; color:" ++ gray400 ++ ";\">" ++ esc company ++ "</div>"
    else ""
  let headerBlock :=
    if logoSrc ≠ "" then
      "\n<table role=\"presentation\" cellpadding=\"0\" cellspacing=\"0\" border=\"0\" style=\"border-collapse:collapse; " ++ baseTd ++ "\">\n  <tr>\n    <td style=\"vertical-align:top; padding-right:12px;\">\n      <img src=\"" ++ esc logoSrc ++ "\" width=\"48\" height=\"48\" style=\"display:block; border:0; outline:none; text-decoration:none; border-radius:10px;\" alt=\"\" />\n    </td>\n    <td style=\"vertical-align:top; " ++ baseTd ++ "\">\n      " ++ namePart ++ "\n      " ++ jobPart ++ "\n      " ++ companyPart ++ "\n    </td>\n  </tr>\n</table>"
    else "\n" ++ namePart ++ "\n" ++ jobPart ++ "\n" ++ companyPart
  let legalRow :=
    if legal ≠ "" then
      "\n<tr>\n  <td style=\"padding-top:12px; " ++ baseTd ++ " font-size:11px; line-height:15px; color:" ++ gray400 ++ "; max-width:420px;\">" ++ String.mk (replaceChar (Char.ofNat 10) "<br/>".data (esc legal).data) ++ "</td>\n</tr>"
    else ""
  let html :=
    "\n<table role=\"presentation\" cellpadding=\"0\" cellspacing=\"0\" border=\"0\" style=\"border-collapse:collapse; " ++ baseTd ++ "\">\n  <tr>\n    <td style=\"padding:0; " ++ baseTd ++ "\">\n      <table role=\"presentation\" cellpadding=\"0\" cellspacing=\"0\" border=\"0\" style=\"border-collapse:collapse; " ++ baseTd ++ "\">\n        <tr>\n          <td style=\"padding:0; " ++ baseTd ++ "\">" ++ headerBlock ++ "</td>\n        </tr>\n\n        <tr>\n          <td style=\"padding-top:10px; " ++ baseTd ++ "\">\n            <table role=\"presentation\" cellpadding=\"0\" cellspacing=\"0\" border=\"0\" style=\"border-collapse:collapse; " ++ baseTd ++ "\">\n              " ++ row officeHtml ++ "\n              " ++ row mobileHtml ++ "\n              " ++ row emailHtml ++ "\n              " ++ row webHtml ++ "\n              " ++ row addressHtml ++ "\n            </table>\n          </td>\n        </tr>\n\n        " ++ socialsRow ++ "\n\n        " ++ legalRow ++ "\n      </table>\n    </td>\n  </tr>\n</table>\n"
  jsTrim html

/-- Source `buildSignatureHTML(data, opts)`: the nested-table e-mail
signature document, with every user-supplied value passed through
`escapeHtml`. -/
def buildSignatureHTML (data : FormData) (opts : Option Theme) : String :=
  let theme : Theme := if opts = some Theme.dark then Theme.dark else Theme.light
  let SOCIAL := if theme = Theme.dark then SOCIAL_DARK else SOCIAL_LIGHT
  let font := "Arial, Helvetica, sans-serif"
  let black := if theme = Theme.dark then "#f8fafc" else "#111827"
  let gray600 := if theme = Theme.dark then "#e5e7eb" else "#4b5563"
  let gray500 := if theme = Theme.dark then "#cbd5e1" else "#6b7280"
  let gray400 := if theme = Theme.dark then "#94a3b8" else "#9ca3af"
  let fullName := jsTrim (String.intercalate " "
    (([data.firstName, data.lastName]).filter (fun s => s ≠ "")))
  let jobLine := jsTrim (String.intercalate " • "
    (([data.jobTitle, data.department]).filter (fun s => s ≠ "")))
  let company := jsTrim data.companyName
  let officePhone := jsTrim data.officePhone
  let mobilePhone := jsTrim data.mobilePhone
  let email := jsTrim data.emailAddress
  let websiteUrl := jsTrim data.websiteUrl
  let address := jsTrim data.address
  let logoSrc :=
    if jsTrim data.logoDataUrl ≠ "" then jsTrim data.logoDataUrl
    else if jsTrim data.logoUrl ≠ "" then normalizeUrl data.logoUrl
    else ""
  let website := if websiteUrl ≠ "" then normalizeUrl websiteUrl else ""
  let socials := ([
    { label := "LinkedIn", url := normalizeUrl data.linkedin, icon := SOCIAL.linkedin },
    { label := "Facebook", url := normalizeUrl data.facebook, icon := SOCIAL.facebook },
    { label := "X", url := normalizeUrl data.twitter, icon := SOCIAL.twitter },
    { label := "Instagram", url := normalizeUrl data.instagram, icon := SOCIAL.instagram },
    { label := "WhatsApp", url := normalizeUrl data.whatsapp, icon := SOCIAL.whatsapp }
  ] : List SocialEntry).filter (fun s => s.url ≠ "")
  let baseTd := "font-family:" ++ font ++ "; text-align:left; mso-line-height-rule:exactly; -webkit-text-size-adjust:100%; -ms-text-size-adjust:100%;"
  let row := fun (html : String) =>
    if html = "" then ""
    else "\n<tr>\n  <td style=\"padding:2px 0; " ++ baseTd ++ " font-size:14px; line-height:18px; color:" ++ gray600 ++ ";\">" ++ html ++ "</td>\n</tr>"
  let officeHtml :=
    if officePhone ≠ "" then
      "<span style=\"color:" ++ gray500 ++ ";\">Office:</span> <a href=\"tel:" ++ escapeHtml officePhone ++ "\" style=\"color:" ++ gray600 ++ "; text-decoration:none;\">" ++ escapeHtml officePhone ++ "</a>"
    else ""
  let mobileHtml :=
    if mobilePhone ≠ "" then
      "<span style=\"color:" ++ gray500 ++ ";\">Mobile:</span> <a href=\"tel:" ++ escapeHtml mobilePhone ++ "\" style=\"color:" ++ gray600 ++ "; text-decoration:none;\">" ++ escapeHtml mobilePhone ++ "</a>"
    else ""
  let emailHtml :=
    if email ≠ "" then
      "<a href=\"mailto:" ++ escapeHtml email ++ "\" style=\"color:" ++ gray600 ++ "; text-decoration:none;\">" ++ escapeHtml email ++ "</a>"
    else ""
  let webHtml :=
    if website ≠ "" then
      "<a href=\"" ++ escapeHtml website ++ "\" style=\"color:" ++ gray600 ++ "; text-decoration:none;\">" ++ escapeHtml (stripProtocol website) ++ "</a>"
    else ""
  let addressHtml :=
    if address ≠ "" then "<span style=\"color:" ++ gray600 ++ ";\">" ++ escapeHtml address ++ "</span>"
    else ""
  let legal := jsTrim data.legal
  let socialsRow :=
    if socials.length > 0 then
      "\n<tr>\n  <td style=\"padding-top:10px; " ++ baseTd ++ "\">\n    <table role=\"presentation\" cellpadding=\"0\" cellspacing=\"0\" border=\"0\" style=\"border-collapse:collapse; " ++ baseTd ++ "\">\n      <tr>\n        "
        ++ String.join (socials.map (fun s =>
          "<td style=\"padding-right:8px;\"><a href=\"" ++ escapeHtml s.url ++ "\" style=\"text-decoration:none;\" target=\"_blank\" rel=\"noopener noreferrer\"><img src=\"" ++ s.icon ++ "\" width=\"24\" height=\"24\" style=\"display:block; border:0; outline:none; text-decoration:none;\" alt=\"" ++ escapeHtml s.label ++ "\" /></a></td>"))
        ++ "\n      </tr>\n    </table>\n  </td>\n</tr>"
    else ""
  let namePart :=
    if fullName ≠ "" then
      "<div style=\"" ++ baseTd ++ " font-size:18px; line-height:22px; font-weight:700; color:" ++ black ++ ";\">" ++ escapeHtml fullName ++ "</div>"
    else ""
  let jobPart :=
    if jobLine ≠ "" then
      "<div style=\"" ++ baseTd ++ " padding-top:2px; font-size:14px; line-height:18px; color:" ++ gray600 ++ ";\">" ++ escapeHtml jobLine ++ "</div>"
    else ""
  let companyPart :=
    if company ≠ "" then
      "<div style=\"" ++ baseTd ++ " padding-top:2px; font-size:14px; line-height:18px; color:" ++ gray400 ++ ";\">" ++ escapeHtml company ++ "</div>"
    else ""
  let headerBlock :=
    if logoSrc ≠ "" then
      "\n<table role=\"presentation\" cellpadding=\"0\" cellspacing=\"0\" border=\"0\" style=\"border-collapse:collapse; " ++ baseTd ++ "\">\n  <tr>\n    <td style=\"vertical-align:top; padding-right:12px;\">\n      <img src=\"" ++ escapeHtml logoSrc ++ "\" width=\"48\" height=\"48\" style=\"display:block; border:0; outline:none; text-decoration:none; border-radius:10px;\" alt=\"\" />\n    </td>\n    <td style=\"vertical-align:top; " ++ baseTd ++ "\">\n      " ++ namePart ++ "\n      " ++ jobPart ++ "\n      " ++ companyPart ++ "\n    </td>\n  </tr>\n</table>"
    else "\n" ++ namePart ++ "\n" ++ jobPart ++ "\n" ++ companyPart
  let legalRow :=
    if legal ≠ "" then
      "\n<tr>\n  <td style=\"padding-top:12px; " ++ baseTd ++ " font-size:11px; line-height:15px; color:" ++ gray400 ++ "; max-width:420px;\">" ++ String.mk (replaceChar (Char.ofNat 10) "<br/>".data (escapeHtml legal).data) ++ "</td>\n</tr>"
    else ""
  let html :=
    "\n<table role=\"presentation\" cellpadding=\"0\" cellspacing=\"0\" border=\"0\" style=\"border-collapse:collapse; " ++ baseTd ++ "\">\n  <tr>\n    <td style=\"padding:0; " ++ baseTd ++ "\">\n      <table role=\"presentation\" cellpadding=\"0\" cellspacing=\"0\" border=\"0\" style=\"border-collapse:collapse; " ++ baseTd ++ "\">\n        <tr>\n          <td style=\"padding:0; " ++ baseTd ++ "\">" ++ headerBlock ++ "</td>\n        </tr>\n\n        <tr>\n          <td style=\"padding-top:10px; " ++ baseTd ++ "\">\n            <table role=\"presentation\" cellpadding=\"0\" cellspacing=\"0\" border=\"0\" style=\"border-collapse:collapse; " ++ baseTd ++ "\">\n              " ++ row officeHtml ++ "\n              " ++ row mobileHtml ++ "\n              " ++ row emailHtml ++ "\n              " ++ row webHtml ++ "\n              " ++ row addressHtml ++ "\n            </table>\n          </td>\n        </tr>\n\n        " ++ socialsRow ++ "\n\n        " ++ legalRow ++ "\n      </table>\n    </td>\n  </tr>\n</table>\n"
  jsTrim html

/-- Substring occurrence test (at any position). -/
def containsSeq (pat : List Char) : List Char → Bool
  | [] => pat.isEmpty
  | c :: rest => List.isPrefixOf pat (c :: rest) || containsSeq pat rest

/-- String-level substring test. -/
def containsS (pat s : String) : Bool :=
  containsSeq pat.data s.data

/-- Number of positions at which a pattern occurs (accumulator form). -/
def countSeqGo (pat : List Char) : Nat → List Char → Nat
  | acc, [] => acc
  | acc, c :: rest =>
    if List.isPrefixOf pat (c :: rest) then countSeqGo pat (acc + 1) rest
    else countSeqGo pat acc rest

/-- String-level occurrence count. -/
def countS (pat s : String) : Nat :=
  countSeqGo pat.data 0 s.data

/-- The scenario record of the spec: only first name, last name and e-mail
address are set. -/
def c8record : FormData :=
  { firstName := "Alex", lastName := "Johnson", jobTitle := "", department := "",
    companyName := "", officePhone := "", mobilePhone := "", websiteUrl := "",
    emailAddress := "a@b.com", address := "", logoUrl := "", logoDataUrl := "",
    linkedin := "", facebook := "", twitter := "", instagram := "", whatsapp := "",
    legal := "" }

/-- Tail-style Boolean list equality (evaluates left to right). -/
def eqListC : List Char → List Char → Bool
  | [], [] => true
  | a :: as, b :: bs => a == b && eqListC as bs
  | _, _ => false

/-- Per-character expansion implemented by the five escape passes: each of
the five special characters becomes its named entity, every other character
is kept unchanged. -/
def escCharL (c : Char) : List Char :=
  if c = '&' then ['&', 'a', 'm', 'p', ';']
  else if c = '<' then ['&', 'l', 't', ';']
  else if c = '>' then ['&', 'g', 't', ';']
  else if c = '"' then ['&', 'q', 'u', 'o', 't', ';']
  else if c = squote then ['&', '#', '0', '3', '9', ';']
  else [c]

/-- Does the text begin with the tail of one of the five escaper
entities? -/
def entityTail (rest : List Char) : Bool :=
  List.isPrefixOf ['a', 'm', 'p', ';'] rest || List.isPrefixOf ['l', 't', ';'] rest
    || List.isPrefixOf ['g', 't', ';'] rest || List.isPrefixOf ['q', 'u', 'o', 't', ';'] rest
    || List.isPrefixOf ['#', '0', '3', '9', ';'] rest

/-- Attribute- and text-context safety of an escaped fragment: no raw less
than, greater than, double quote or apostrophe anywhere, and every ampersand
opens one of the five entities the escaper emits. -/
def escOk : List Char → Bool
  | [] => true
  | c :: rest =>
    if c = '<' || c = '>' || c = '"' || c = squote then false
    else if c = '&' then entityTail rest && escOk rest
    else escOk rest

example : computeOutput "Hi, Bob!" true "upper" = "HI, BOB!" := by decide
example : computeOutput "  Hi  " false "lower" = "hi" := by decide
example : computeOutput "hello world" true "title" = "Hello World" := by decide
example : computeOutput "HELLO. HOW ARE YOU?\nOK!" true "sentence" = "Hello. How are you?\nOk!" := by decide
example : computeOutput "AbC" true "toggle" = "aBc" := by decide
example : computeOutput "ab cd" true "alternating" = "aB cD" := by decide
example : computeOutput "hello world" true "camel" = "helloWorld" := by decide
example : computeOutput "hello world" true "pascal" = "HelloWorld" := by decide
example : computeOutput "Hello, world!" true "snake" = "hello_world" := by decide
example : computeOutput "Hello, world!" true "kebab" = "hello-world" := by decide
example : computeOutput "Hello, world!" true "dot" = "hello.world" := by decide
example : computeOutput "Hello, world!" true "space" = "Hello world" := by decide

theorem toNat_toUpper (c : Char) :
    (Char.toUpper c).toNat =
      if 97 ≤ c.toNat ∧ c.toNat ≤ 122 then c.toNat - 32 else c.toNat := by
  simp only [Char.toUpper]
  split
  next h =>
    have hv : (c.toNat - 32).isValidChar := Or.inl (by omega)
    rw [Char.ofNat, dif_pos hv]
    rfl
  next h => rfl

theorem toUpper_eq_self (c : Char) (h : ¬(97 ≤ c.toNat ∧ c.toNat ≤ 122)) :
    Char.toUpper c = c := by
  simp only [Char.toUpper]
  rw [if_neg h]

theorem toUpper_toUpper (c : Char) :
    Char.toUpper (Char.toUpper c) = Char.toUpper c := by
  by_cases hc : 97 ≤ c.toNat ∧ c.toNat ≤ 122
  · apply toUpper_eq_self
    rw [toNat_toUpper, if_pos hc]
    omega
  · rw [toUpper_eq_self c hc]
    exact toUpper_eq_self c hc

theorem isLetterC_toUpper (c : Char) :
    isLetterC (Char.toUpper c) = isLetterC c := by
  have h := toNat_toUpper c
  rw [Bool.eq_iff_iff]
  simp only [isLetterC, h, Bool.or_eq_true, decide_eq_true_eq]
  by_cases hc : 97 ≤ c.toNat ∧ c.toNat ≤ 122
  · rw [if_pos hc]; omega
  · rw [if_neg hc]

theorem isAlnumC_toUpper (c : Char) :
    isAlnumC (Char.toUpper c) = isAlnumC c := by
  have h := toNat_toUpper c
  rw [Bool.eq_iff_iff]
  simp only [isAlnumC, isLetterC, isDigitC, h, Bool.or_eq_true, decide_eq_true_eq]
  by_cases hc : 97 ≤ c.toNat ∧ c.toNat ≤ 122
  · rw [if_pos hc]; omega
  · rw [if_neg hc]

theorem pwtGo_map_eq_maskApply (g : Char → Char) :
    ∀ (s acc : List Char),
      pwtGo (List.map g) acc s =
        acc.reverse.map g ++ maskApplyL g (!acc.isEmpty) s := by
  intro s
  induction s with
  | nil =>
    intro acc
    cases acc with
    | nil => rfl
    | cons a as => simp [pwtGo, maskApplyL]
  | cons c rest ih =>
    intro acc
    by_cases hl : isLetterC c = true
    · have ha : isAlnumC c = true := by simp [isAlnumC, hl]
      cases acc with
      | nil =>
        simp only [pwtGo, ha, if_true, List.isEmpty_nil, if_pos rfl, maskApplyL, hl,
          List.reverse_nil, List.map_nil, List.nil_append, Bool.not_true]
        rw [ih [c]]
        simp [maskApplyL]
      | cons a as =>
        simp only [pwtGo, ha, if_true, List.isEmpty_cons, Bool.false_eq_true, if_false,
          maskApplyL, hl, Bool.not_false]
        rw [ih (c :: a :: as)]
        simp [List.append_assoc]
    · by_cases ha : isAlnumC c = true
      · cases acc with
        | nil =>
          simp only [pwtGo, ha, if_true, List.isEmpty_nil, if_pos rfl, hl, Bool.false_eq_true,
            if_false, maskApplyL, List.reverse_nil, List.map_nil, List.nil_append, Bool.not_true]
          rw [ih []]
          simp [maskApplyL]
        | cons a as =>
          simp only [pwtGo, ha, if_true, List.isEmpty_cons, Bool.false_eq_true, if_false,
            maskApplyL, hl, Bool.not_false]
          rw [ih (c :: a :: as)]
          simp [List.append_assoc]
      · cases acc with
        | nil =>
          simp only [pwtGo, ha, Bool.false_eq_true, if_false, List.isEmpty_nil, if_pos rfl,
            maskApplyL, hl, List.reverse_nil, List.map_nil, List.nil_append, Bool.not_true]
          rw [ih []]
          simp [maskApplyL]
        | cons a as =>
          simp only [pwtGo, ha, Bool.false_eq_true, if_false, List.isEmpty_cons,
            maskApplyL, hl, Bool.not_false]
          rw [ih []]
          simp [maskApplyL]

theorem upper_preserve_eq (t : String) :
    computeOutput t true "upper" = String.mk (maskApplyL Char.toUpper false t.data) := by
  show String.mk (pwtGo (List.map Char.toUpper) [] t.data) = _
  rw [pwtGo_map_eq_maskApply]
  rfl

theorem maskApply_toUpper_idem :
    ∀ (s : List Char) (b : Bool),
      maskApplyL Char.toUpper b (maskApplyL Char.toUpper b s) = maskApplyL Char.toUpper b s := by
  intro s
  induction s with
  | nil => intro b; rfl
  | cons c rest ih =>
    intro b
    by_cases hl : isLetterC c = true
    · simp only [maskApplyL, hl, if_true, isLetterC_toUpper, toUpper_toUpper, ih]
    · rw [Bool.not_eq_true] at hl
      by_cases ha : isAlnumC c = true
      · cases b with
        | false =>
          simp only [maskApplyL, hl, Bool.false_eq_true, if_false, ha, if_true, ih]
        | true =>
          simp only [maskApplyL, hl, Bool.false_eq_true, if_false, ha, if_true,
            isLetterC_toUpper, isAlnumC_toUpper, toUpper_toUpper, ih]
      · rw [Bool.not_eq_true] at ha
        simp only [maskApplyL, hl, Bool.false_eq_true, if_false, ha, ih]

/-- C5: with the preserve flag set, the `upper` and `lower` transforms map,
in place, exactly the characters of the word tokens (a token starts at a
letter and extends maximally through letters and digits), leaving every other
character unchanged in its position; with the flag clear they return the
whole trimmed input uppercased (lowercased) as one unit. -/
theorem c5_upper_lower_in_place (text : String) :
    computeOutput text true "upper" = String.mk (maskApplyL Char.toUpper false text.data)
    ∧ computeOutput text false "upper" = String.mk (upperL (trimL text.data))
    ∧ computeOutput text true "lower" = String.mk (maskApplyL Char.toLower false text.data)
    ∧ computeOutput text false "lower" = String.mk (lowerL (trimL text.data)) := by
  refine ⟨upper_preserve_eq text, rfl, ?_, rfl⟩
  show String.mk (pwtGo (List.map Char.toLower) [] text.data) = _
  rw [pwtGo_map_eq_maskApply]
  rfl

/-- C9: re-applying the preserve-mode upper transform is a no-op. -/
theorem c9_upper_preserve_idempotent (x : String) :
    computeOutput (computeOutput x true "upper") true "upper" = computeOutput x true "upper" := by
  rw [upper_preserve_eq x]
  rw [upper_preserve_eq (String.mk (maskApplyL Char.toUpper false x.data))]
  show String.mk (maskApplyL Char.toUpper false (maskApplyL Char.toUpper false x.data)) = _
  rw [maskApply_toUpper_idem]

/-- C3 counterexample: with a leading space, `title` under preserve=true
keeps the space while preserve=false first trims it, so the two outputs
differ — the claim fails as stated. -/
theorem c3_counterexample :
    computeOutput " a" true "title" ≠ computeOutput " a" false "title" := by decide

/-- C3 (amended): for title, sentence, toggle and alternating the
per-character policy itself ignores the preserve flag, but preserve=false
first trims the input: the flag-false output equals the flag-true output on
the trimmed input, and on inputs with no leading or trailing whitespace the
two flag values agree. -/
theorem c3_flag_only_trims (text k : String)
    (hk : k = "title" ∨ k = "sentence" ∨ k = "toggle" ∨ k = "alternating") :
    computeOutput text false k = computeOutput (jsTrim text) true k
    ∧ (jsTrim text = text → computeOutput text true k = computeOutput text false k) := by
  rcases hk with h | h | h | h <;> subst h
  · refine ⟨rfl, fun ht => ?_⟩
    show toTitleCase text = toTitleCase (jsTrim text)
    rw [ht]
  · refine ⟨rfl, fun ht => ?_⟩
    show toSentenceCase text = toSentenceCase (jsTrim text)
    rw [ht]
  · refine ⟨rfl, fun ht => ?_⟩
    show toggleCase text = toggleCase (jsTrim text)
    rw [ht]
  · refine ⟨rfl, fun ht => ?_⟩
    show alternatingCase text = alternatingCase (jsTrim text)
    rw [ht]

theorem c3_flag_only_trims_witness :
    (("toggle" : String) = "title" ∨ ("toggle" : String) = "sentence"
      ∨ ("toggle" : String) = "toggle" ∨ ("toggle" : String) = "alternating")
    ∧ (computeOutput "Ab c" false "toggle" = computeOutput (jsTrim "Ab c") true "toggle"
       ∧ (jsTrim "Ab c" = "Ab c" →
          computeOutput "Ab c" true "toggle" = computeOutput "Ab c" false "toggle")) :=
  ⟨by decide, c3_flag_only_trims "Ab c" "toggle" (by decide)⟩

/-- C10: a transform key outside the twelve enumerated keys falls through
every branch of the dispatch and the input text is returned unchanged. -/
theorem c10_unknown_key_identity (text : String) (preserve : Bool) (k : String)
    (hk : k ∉ (["upper", "lower", "title", "sentence", "toggle", "alternating",
      "camel", "pascal", "snake", "kebab", "dot", "space"] : List String)) :
    computeOutput text preserve k = text := by
  simp only [List.mem_cons, List.not_mem_nil, or_false, not_or] at hk
  obtain ⟨h1, h2, h3, h4, h5, h6, h7, h8, h9, h10, h11, h12⟩ := hk
  simp only [computeOutput, if_neg h1, if_neg h2, if_neg h3, if_neg h4, if_neg h5, if_neg h6,
    if_neg h7, if_neg h8, if_neg h9, if_neg h10, if_neg h11, if_neg h12]

theorem c10_unknown_key_identity_witness :
    (("banana" : String) ∉ (["upper", "lower", "title", "sentence", "toggle", "alternating",
      "camel", "pascal", "snake", "kebab", "dot", "space"] : List String))
    ∧ computeOutput "Some text" true "banana" = "Some text" :=
  ⟨by decide, c10_unknown_key_identity "Some text" true "banana" (by decide)⟩

theorem ws_not_alnum (c : Char) (h : isWSC c = true) : isAlnumC c = false := by
  simp only [isWSC, Char.isWhitespace, Bool.or_eq_true, decide_eq_true_eq] at h
  rcases h with ((h | h) | h) | h <;> subst h <;> decide

theorem alnum_not_ws (c : Char) (h : isAlnumC c = true) : isWSC c = false := by
  by_contra h'
  rw [Bool.not_eq_false] at h'
  rw [ws_not_alnum c h'] at h
  exact Bool.false_ne_true h

theorem wordsGo_append_sep (c : Char) (hc : isAlnumC c = false) :
    ∀ (v acc : List Char), wordsGo acc (v ++ [c]) = wordsGo acc v := by
  intro v
  induction v with
  | nil =>
    intro acc
    cases acc with
    | nil => simp [wordsGo, hc]
    | cons a as => simp [wordsGo, hc]
  | cons x v' ih =>
    intro acc
    by_cases hx : isAlnumC x = true
    · simp only [List.cons_append, wordsGo, hx, if_true]
      exact ih (x :: acc)
    · rw [Bool.not_eq_true] at hx
      cases acc with
      | nil => simpa only [List.cons_append, wordsGo, hx, Bool.false_eq_true, if_false,
          List.isEmpty_nil, if_pos rfl] using ih []
      | cons a as =>
        simp only [List.cons_append, wordsGo, hx, Bool.false_eq_true, if_false,
          List.isEmpty_cons, List.append_eq]
        rw [ih []]

theorem wordsGo_append_seps :
    ∀ (t v : List Char), (∀ c ∈ t, isAlnumC c = false) →
      wordsGo [] (v ++ t) = wordsGo [] v := by
  intro t
  induction t with
  | nil => intro v _; rw [List.append_nil]
  | cons c t' ih =>
    intro v ht
    have : v ++ c :: t' = (v ++ [c]) ++ t' := by simp
    rw [this, ih (v ++ [c]) (fun d hd => ht d (List.mem_cons_of_mem c hd)),
      wordsGo_append_sep c (ht c (List.mem_cons_self c t')) v []]

theorem wordsGo_cons_sep (c : Char) (s : List Char) (hc : isAlnumC c = false) :
    wordsGo [] (c :: s) = wordsGo [] s := by
  simp [wordsGo, hc]

theorem wordsGo_dropWhile_ws :
    ∀ s : List Char, wordsGo [] (s.dropWhile isWSC) = wordsGo [] s := by
  intro s
  induction s with
  | nil => rfl
  | cons c s' ih =>
    rw [List.dropWhile_cons]
    by_cases hw : isWSC c = true
    · rw [if_pos hw, ih, wordsGo_cons_sep c s' (ws_not_alnum c hw)]
    · rw [Bool.not_eq_true] at hw
      rw [hw]
      simp

theorem wordsGo_trim (s : List Char) :
    wordsGo [] (trimL s) = wordsGo [] s := by
  unfold trimL
  set u := s.dropWhile isWSC with hu
  have hdecomp : u = (u.reverse.dropWhile isWSC).reverse ++ (u.reverse.takeWhile isWSC).reverse := by
    conv_lhs => rw [← List.reverse_reverse u,
      ← List.takeWhile_append_dropWhile (p := isWSC) (l := u.reverse)]
    rw [List.reverse_append]
  have hseps : ∀ c ∈ (u.reverse.takeWhile isWSC).reverse, isAlnumC c = false := by
    intro c hcmem
    rw [List.mem_reverse] at hcmem
    exact ws_not_alnum c (List.mem_takeWhile_imp hcmem)
  calc wordsGo [] ((u.reverse.dropWhile isWSC).reverse)
      = wordsGo [] ((u.reverse.dropWhile isWSC).reverse ++ (u.reverse.takeWhile isWSC).reverse) :=
        (wordsGo_append_seps _ _ hseps).symm
    _ = wordsGo [] u := by rw [← hdecomp]
    _ = wordsGo [] s := wordsGo_dropWhile_ws s

theorem modifyHead_congr {α : Type} (l : List α) (f g : α → α) (h : ∀ x, f x = g x) :
    l.modifyHead f = l.modifyHead g := by
  cases l <;> simp [h]

theorem modifyHead_comp {α : Type} (l : List α) (f g : α → α) :
    (l.modifyHead f).modifyHead g = l.modifyHead (fun x => g (f x)) := by
  cases l <;> simp

theorem modifyHead_id' {α : Type} (l : List α) : l.modifyHead (fun x => x) = l := by
  cases l <;> simp

theorem splitEach_cons_sep (p : Char → Bool) (c : Char) (s : List Char) (h : p c = true) :
    splitEach p (c :: s) = [] :: splitEach p s := by
  simp [splitEach, h]

theorem splitEach_cons_keep (p : Char → Bool) (c : Char) (s : List Char) (h : p c = false) :
    splitEach p (c :: s) = (splitEach p s).modifyHead (fun w => c :: w) := by
  simp [splitEach, h]

theorem wordsGo_cons_alnum (c : Char) (s acc : List Char) (h : isAlnumC c = true) :
    wordsGo acc (c :: s) = wordsGo (c :: acc) s := by
  simp [wordsGo, h]

theorem wordsGo_cons_sep_flush (c : Char) (s : List Char) (a : Char) (as : List Char)
    (h : isAlnumC c = false) :
    wordsGo (a :: as) (c :: s) = (a :: as).reverse :: wordsGo [] s := by
  simp [wordsGo, h]

theorem wordsGo_eq_splitEach :
    ∀ (s acc : List Char),
      wordsGo acc s =
        ((splitEach (fun c => !isAlnumC c) s).modifyHead
          (fun w => acc.reverse ++ w)).filter (fun w => !w.isEmpty) := by
  intro s
  induction s with
  | nil =>
    intro acc
    cases acc with
    | nil => rfl
    | cons a as =>
      show [(a :: as).reverse] = _
      simp only [splitEach, List.modifyHead_cons, List.append_nil, List.filter_cons]
      have hne : ((a :: as).reverse.isEmpty) = false := by
        simp [List.isEmpty_iff]
      rw [hne]
      rfl
  | cons c s' ih =>
    intro acc
    by_cases hc : isAlnumC c = true
    · have hp : (fun x => !isAlnumC x) c = false := by simp [hc]
      rw [wordsGo_cons_alnum c s' acc hc, splitEach_cons_keep _ _ _ hp, modifyHead_comp,
        ih (c :: acc)]
      apply congrArg
      apply modifyHead_congr
      intro w
      simp
    · rw [Bool.not_eq_true] at hc
      have hp : (fun x => !isAlnumC x) c = true := by simp [hc]
      rw [splitEach_cons_sep _ _ _ hp, List.modifyHead_cons, List.filter_cons]
      cases acc with
      | nil =>
        rw [wordsGo_cons_sep c s' hc]
        simp only [List.reverse_nil, List.nil_append, List.append_nil, List.isEmpty_nil,
          Bool.not_true, Bool.false_eq_true, if_false]
        rw [ih []]
        apply congrArg
        exact (modifyHead_congr _ _ _ (fun w => by simp)).trans (modifyHead_id' _)
      | cons a as =>
        rw [wordsGo_cons_sep_flush c s' a as hc]
        have hne : (!((a :: as).reverse ++ []).isEmpty) = true := by
          simp [List.isEmpty_iff]
        rw [hne, if_pos rfl, List.append_nil]
        apply congrArg
        rw [ih []]
        apply congrArg
        exact (modifyHead_congr _ _ _ (fun w => by simp)).trans (modifyHead_id' _)

theorem splitWords_eq_spec (text : String) :
    splitWords text = splitWordsSpec text := by
  show wordsGo [] (trimL text.data) = _
  rw [wordsGo_trim, wordsGo_eq_splitEach text.data []]
  unfold splitWordsSpec
  apply congrArg
  exact (modifyHead_congr _ _ _ (fun w => by simp)).trans (modifyHead_id' _)

/-- C6: for either value of the preserve flag, snake, kebab and dot equal
the tokens obtained by splitting on non-alphanumeric characters (empty
tokens discarded), each lowercased, joined with the respective delimiter;
"Hello, world!" yields the three worked examples. -/
theorem c6_delimited_joins (text : String) (preserve : Bool) :
    computeOutput text preserve "snake"
      = String.mk (List.intercalate ['_'] ((splitWordsSpec text).map lowerL))
    ∧ computeOutput text preserve "kebab"
      = String.mk (List.intercalate ['-'] ((splitWordsSpec text).map lowerL))
    ∧ computeOutput text preserve "dot"
      = String.mk (List.intercalate ['.'] ((splitWordsSpec text).map lowerL))
    ∧ computeOutput "Hello, world!" preserve "snake" = "hello_world"
    ∧ computeOutput "Hello, world!" preserve "kebab" = "hello-world"
    ∧ computeOutput "Hello, world!" preserve "dot" = "hello.world" := by
  have hsnake : computeOutput text preserve "snake" = toDelimited text ['_'] := by
    cases preserve <;> rfl
  have hkebab : computeOutput text preserve "kebab" = toDelimited text ['-'] := by
    cases preserve <;> rfl
  have hdot : computeOutput text preserve "dot" = toDelimited text ['.'] := by
    cases preserve <;> rfl
  refine ⟨?_, ?_, ?_, by cases preserve <;> decide, by cases preserve <;> decide,
    by cases preserve <;> decide⟩
  · rw [hsnake]
    unfold toDelimited
    rw [splitWords_eq_spec]
  · rw [hkebab]
    unfold toDelimited
    rw [splitWords_eq_spec]
  · rw [hdot]
    unfold toDelimited
    rw [splitWords_eq_spec]

theorem wordsGo_tokens_alnum :
    ∀ (s acc : List Char), acc.all isAlnumC = true →
      ∀ w ∈ wordsGo acc s, w ≠ [] ∧ w.all isAlnumC = true := by
  intro s
  induction s with
  | nil =>
    intro acc hacc w hw
    cases acc with
    | nil => simp [wordsGo] at hw
    | cons a as =>
      show w ≠ [] ∧ _
      have : w = (a :: as).reverse := by
        simpa [wordsGo] using hw
      subst this
      constructor
      · simp
      · rw [List.all_reverse]
        exact hacc
  | cons c s' ih =>
    intro acc hacc w hw
    by_cases hc : isAlnumC c = true
    · rw [wordsGo_cons_alnum c s' acc hc] at hw
      exact ih (c :: acc) (by simp [List.all_cons, hc, hacc]) w hw
    · rw [Bool.not_eq_true] at hc
      cases acc with
      | nil =>
        rw [wordsGo_cons_sep c s' hc] at hw
        exact ih [] rfl w hw
      | cons a as =>
        rw [wordsGo_cons_sep_flush c s' a as hc] at hw
        rcases List.mem_cons.mp hw with h | h
        · subst h
          constructor
          · simp
          · rw [List.all_reverse]
            exact hacc
        · exact ih [] rfl w h

theorem all_cons_split {p : Char → Bool} {c : Char} {s : List Char}
    (h : (c :: s).all p = true) : p c = true ∧ s.all p = true := by
  rw [List.all_cons, Bool.and_eq_true] at h
  exact h

theorem dropWhile_ws_eq_self (s : List Char) (h : s.all isAlnumC = true) :
    s.dropWhile isWSC = s := by
  cases s with
  | nil => rfl
  | cons c s' =>
    rw [List.dropWhile_cons]
    have hc : isAlnumC c = true := (all_cons_split h).1
    rw [alnum_not_ws c hc]
    simp

theorem trimL_all_alnum (s : List Char) (h : s.all isAlnumC = true) : trimL s = s := by
  unfold trimL
  rw [dropWhile_ws_eq_self s h]
  rw [dropWhile_ws_eq_self s.reverse (by rwa [List.all_reverse])]
  exact s.reverse_reverse

theorem wordsGo_all_alnum_single :
    ∀ (s acc : List Char), s.all isAlnumC = true → (acc ≠ [] ∨ s ≠ []) →
      wordsGo acc s = [acc.reverse ++ s] := by
  intro s
  induction s with
  | nil =>
    intro acc _ hne
    cases acc with
    | nil => rcases hne with h | h <;> exact absurd rfl h
    | cons a as => simp [wordsGo]
  | cons c s' ih =>
    intro acc hall hne
    have hc : isAlnumC c = true := (all_cons_split hall).1
    rw [wordsGo_cons_alnum c s' acc hc,
      ih (c :: acc) (all_cons_split hall).2 (Or.inl (List.cons_ne_nil c acc))]
    simp

/-- C7 counterexample: the delimiter-family tokenizer keeps the maximal
alphanumeric run "1abc" as a single token even though it begins with the
digit 1 (not a letter), and the snake join treats it as a word token. -/
theorem c7_counterexample :
    splitWords "1abc" = [['1', 'a', 'b', 'c']]
    ∧ isLetterC '1' = false
    ∧ computeOutput "1abc x" true "snake" = "1abc_x" :=
  ⟨by decide, by decide, by decide⟩

/-- C7 (amended): tokens of the delimiter-family tokenizer `splitWords` are
the nonempty maximal runs of alphanumeric characters; they need not start
with a letter — in particular any wholly alphanumeric text, even one that
begins with a digit, is kept as one single token.  Only the in-place
transforms' regex restricts tokens to begin with a letter. -/
theorem c7_word_tokens (text : String) :
    (∀ w ∈ splitWords text, w ≠ [] ∧ w.all isAlnumC = true)
    ∧ (text.data ≠ [] → text.data.all isAlnumC = true → splitWords text = [text.data]) := by
  constructor
  · intro w hw
    exact wordsGo_tokens_alnum (trimL text.data) [] rfl w hw
  · intro hne hall
    show wordsGo [] (trimL text.data) = _
    rw [trimL_all_alnum text.data hall,
      wordsGo_all_alnum_single text.data [] hall (Or.inr hne)]
    rfl

theorem c7_word_tokens_witness :
    ((['1', 'a', 'b'] ∈ splitWords "1ab!?")
      ∧ ['1', 'a', 'b'] ≠ [] ∧ (['1', 'a', 'b'].all isAlnumC = true))
    ∧ (("x9".data ≠ [] ∧ "x9".data.all isAlnumC = true)
      ∧ splitWords "x9" = ["x9".data]) :=
  ⟨⟨by decide, (c7_word_tokens "1ab!?").1 ['1', 'a', 'b'] (by decide)⟩,
   ⟨⟨by decide, by decide⟩, (c7_word_tokens "x9").2 (by decide) (by decide)⟩⟩

example : normalizeUrl "example.com" = "https://example.com" := by decide
example : normalizeUrl " HTTPS://x.com " = "HTTPS://x.com" := by decide
example : normalizeUrl "" = "" := by decide

theorem eqListC_eq : ∀ (a b : List Char), eqListC a b = true → a = b := by
  intro a
  induction a with
  | nil =>
    intro b h
    cases b with
    | nil => rfl
    | cons x xs => exact absurd h (by simp [eqListC])
  | cons x xs ih =>
    intro b h
    cases b with
    | nil => exact absurd h (by simp [eqListC])
    | cons y ys =>
      rw [eqListC, Bool.and_eq_true, beq_iff_eq] at h
      rw [h.1, ih ys h.2]

theorem str_eq_of_data_eq (s t : String) (h : s.data = t.data) : s = t := by
  cases s
  cases t
  cases h
  rfl

theorem c8_output_value :
    buildSignatureHTML c8record none = "<table role=\"presentation\" cellpadding=\"0\" cellspacing=\"0\" border=\"0\" style=\"border-collapse:collapse; font-family:Arial, Helvetica, sans-serif; text-align:left; mso-line-height-rule:exactly; -webkit-text-size-adjust:100%; -ms-text-size-adjust:100%;\">\n  <tr>\n    <td style=\"padding:0; font-family:Arial, Helvetica, sans-serif; text-align:left; mso-line-height-rule:exactly; -webkit-text-size-adjust:100%; -ms-text-size-adjust:100%;\">\n      <table role=\"presentation\" cellpadding=\"0\" cellspacing=\"0\" border=\"0\" style=\"border-collapse:collapse; font-family:Arial, Helvetica, sans-serif; text-align:left; mso-line-height-rule:exactly; -webkit-text-size-adjust:100%; -ms-text-size-adjust:100%;\">\n        <tr>\n          <td style=\"padding:0; font-family:Arial, Helvetica, sans-serif; text-align:left; mso-line-height-rule:exactly; -webkit-text-size-adjust:100%; -ms-text-size-adjust:100%;\">\n<div style=\"font-family:Arial, Helvetica, sans-serif; text-align:left; mso-line-height-rule:exactly; -webkit-text-size-adjust:100%; -ms-text-size-adjust:100%; font-size:18px; line-height:22px; font-weight:700; color:#111827;\">Alex Johnson</div>\n\n</td>\n        </tr>\n\n        <tr>\n          <td style=\"padding-top:10px; font-family:Arial, Helvetica, sans-serif; text-align:left; mso-line-height-rule:exactly; -webkit-text-size-adjust:100%; -ms-text-size-adjust:100%;\">\n            <table role=\"presentation\" cellpadding=\"0\" cellspacing=\"0\" border=\"0\" style=\"border-collapse:collapse; font-family:Arial, Helvetica, sans-serif; text-align:left; mso-line-height-rule:exactly; -webkit-text-size-adjust:100%; -ms-text-size-adjust:100%;\">\n              \n              \n              \n<tr>\n  <td style=\"padding:2px 0; font-family:Arial, Helvetica, sans-serif; text-align:left; mso-line-height-rule:exactly; -webkit-text-size-adjust:100%; -ms-text-size-adjust:100%; font-size:14px; line-height:18px; color:#4b5563;\"><a href=\"mailto:a@b.com\" style=\"color:#4b5563; text-decoration:none;\">a@b.com</a></td>\n</tr>\n              \n              \n            </table>\n          </td>\n        </tr>\n\n        \n\n        \n      </table>\n    </td>\n  </tr>\n</table>" :=
  str_eq_of_data_eq _ _ (eqListC_eq _ _ (by decide))

/-- C8: for the record with only firstName, lastName and emailAddress set,
the output has the name header (the 18px bold div holding Alex Johnson),
exactly one contact row (the 2px-padded row), that row carrying a mailto
link to a@b.com, and no logo image, no social-icon row and no legal
block. -/
theorem c8_minimal_record_scenario :
    containsS ">Alex Johnson</div>" (buildSignatureHTML c8record none) = true
    ∧ containsS "font-size:18px" (buildSignatureHTML c8record none) = true
    ∧ countS "padding:2px 0;" (buildSignatureHTML c8record none) = 1
    ∧ containsS "href=\"mailto:a@b.com\"" (buildSignatureHTML c8record none) = true
    ∧ containsS "<img" (buildSignatureHTML c8record none) = false
    ∧ containsS "rel=\"noopener noreferrer\"" (buildSignatureHTML c8record none) = false
    ∧ containsS "font-size:11px" (buildSignatureHTML c8record none) = false := by
  rw [c8_output_value]
  refine ⟨by decide, by decide, by decide, by decide, by decide, by decide, by decide⟩

theorem replaceChar_append (t : Char) (r xs ys : List Char) :
    replaceChar t r (xs ++ ys) = replaceChar t r xs ++ replaceChar t r ys := by
  induction xs with
  | nil => rfl
  | cons c cs ih => simp [replaceChar, ih, List.append_assoc]

theorem escapeHtmlL_cons (c : Char) (cs : List Char) :
    escapeHtmlL (c :: cs) = escCharL c ++ escapeHtmlL cs := by
  by_cases h1 : c = '&'
  · subst h1; rfl
  · by_cases h2 : c = '<'
    · subst h2; rfl
    · by_cases h3 : c = '>'
      · subst h3; rfl
      · by_cases h4 : c = '"'
        · subst h4; rfl
        · by_cases h5 : c = squote
          · subst h5; rfl
          · simp [escapeHtmlL, escCharL, replaceChar, h1, h2, h3, h4, h5,
              replaceChar_append]

theorem isPrefixOf_nil_left' (l : List Char) : List.isPrefixOf ([] : List Char) l = true := by
  cases l <;> rfl

theorem escOk_append_escChar (c : Char) (rest : List Char) (h : escOk rest = true) :
    escOk (escCharL c ++ rest) = true := by
  by_cases h1 : c = '&'
  · subst h1
    simp [escCharL, escOk, entityTail, h, List.isPrefixOf_cons₂, isPrefixOf_nil_left']
    all_goals decide
  · by_cases h2 : c = '<'
    · subst h2
      simp [escCharL, escOk, entityTail, h, List.isPrefixOf_cons₂, isPrefixOf_nil_left']
      all_goals decide
    · by_cases h3 : c = '>'
      · subst h3
        simp [escCharL, escOk, entityTail, h, List.isPrefixOf_cons₂, isPrefixOf_nil_left']
        all_goals decide
      · by_cases h4 : c = '"'
        · subst h4
          simp [escCharL, escOk, entityTail, h, List.isPrefixOf_cons₂, isPrefixOf_nil_left']
          all_goals decide
        · by_cases h5 : c = squote
          · subst h5
            simp [escCharL, escOk, entityTail, h, List.isPrefixOf_cons₂, isPrefixOf_nil_left']
            all_goals decide
          · simp [escCharL, escOk, h1, h2, h3, h4, h5, h]

theorem escOk_escapeHtmlL (s : List Char) : escOk (escapeHtmlL s) = true := by
  induction s with
  | nil => rfl
  | cons c cs ih =>
    rw [escapeHtmlL_cons]
    exact escOk_append_escChar c _ ih

/-- C1: every user-supplied field value that the signature builder
interpolates goes through escapeHtml — the builder coincides with the
escaper-parameterised transcription instantiated with escapeHtml, in which
each field value occurs only under the escaper — and escapeHtml output is
injection-safe: it contains no raw angle bracket, double quote or
apostrophe, and every ampersand opens one of the five named entities
(ampersand being replaced first). -/
theorem c1_all_fields_escaped :
    (∀ (d : FormData) (o : Option Theme),
      buildSignatureHTML d o = buildSignatureHTMLWith escapeHtml d o)
    ∧ (∀ s : String, escOk (escapeHtml s).data = true) :=
  ⟨fun _ _ => rfl, fun s => escOk_escapeHtmlL s.data⟩

/-- C2: both core entry points are total Lean functions: for every record,
theme option, text, flag and key they compute a result string (no error
case exists in the embedding). -/
theorem c2_total_functions (d : FormData) (o : Option Theme) (t : String) (p : Bool)
    (k : String) :
    ∃ (html out : String), buildSignatureHTML d o = html ∧ computeOutput t p k = out :=
  ⟨buildSignatureHTML d o, computeOutput t p k, rfl, rfl⟩

theorem protoTest_eq_startsWithCI :
    ∀ (p s : List Char), (∀ a ∈ p, Char.toLower a = a) →
      protoTest p s = startsWithCI p s := by
  intro p
  induction p with
  | nil => intro s _; cases s <;> rfl
  | cons a ps ih =>
    intro s hp
    cases s with
    | nil => rfl
    | cons c cs =>
      have ha : Char.toLower a = a := hp a (List.mem_cons_self a ps)
      have ih' : List.isPrefixOf ps (cs.map Char.toLower) = startsWithCI ps cs :=
        ih cs (fun x hx => hp x (List.mem_cons_of_mem a hx))
      show List.isPrefixOf (a :: ps) (List.map Char.toLower (c :: cs)) = _
      rw [List.map_cons, List.isPrefixOf_cons₂]
      simp only [startsWithCI, ha, ih']
      congr 1
      rw [Bool.eq_iff_iff, beq_iff_eq, beq_iff_eq]
      exact eq_comm

theorem normalizeUrl_cond_eq (v : String) :
    (protoTest "mailto:".data v.data || protoTest "tel:".data v.data
      || protoTest "http://".data v.data || protoTest "https://".data v.data)
    = (startsWithCI "mailto:".data v.data || startsWithCI "tel:".data v.data
      || startsWithCI "http://".data v.data || startsWithCI "https://".data v.data) := by
  rw [protoTest_eq_startsWithCI _ _ (by decide), protoTest_eq_startsWithCI _ _ (by decide),
    protoTest_eq_startsWithCI _ _ (by decide), protoTest_eq_startsWithCI _ _ (by decide)]

/-- C4: normalizeUrl implements the spec contract — trim, keep empty input
empty, keep values already carrying a mailto:, tel:, http:// or https://
prefix (case-insensitively) unchanged, prefix https:// otherwise — and
satisfies the three worked examples. -/
theorem c4_normalizeUrl_contract (raw : String) :
    normalizeUrl raw = normalizeUrlSpec raw
    ∧ normalizeUrl "example.com" = "https://example.com"
    ∧ normalizeUrl "https://x.com" = "https://x.com"
    ∧ normalizeUrl "" = "" := by
  refine ⟨?_, by decide, by decide, by decide⟩
  simp only [normalizeUrl, normalizeUrlSpec]
  rw [normalizeUrl_cond_eq]
